import Mathlib

/-!
Shallow embedding of `src/ingest.py` (document-ingestion pipeline).

Modelling conventions:
* Python strings are Lean `String`s; `str.lower()` / `str.upper()` are
  `pyLower` / `pyUpper` (per-character ASCII case mapping, which coincides with
  Python on the ASCII extension strings handled here).
* The filesystem under `source_directory` is a list of relative path strings
  (components separated by `/`).  `glob.glob(..., recursive=True)` semantics
  on a case-sensitive filesystem are modelled by `globMatch`: the basename
  must end with the (case-sensitive) extension pattern and no component may be
  hidden (the glob wildcards `**` and `*` do not match a leading dot).
* External collaborators (the per-format loader classes, the text splitter,
  the embedding probe, the Chroma store) are parameters of the pipeline,
  constrained only by their interface types; a raised Python exception is an
  `Except.error`.
* The `Pool.imap_unordered` loading stage is modelled by sequential in-order
  aggregation (`mapLoad`); none of the properties proved below depend on the
  aggregation order.
-/

/-- A langchain `Document`: page content plus the `source` metadata field
(the only metadata field `ingest.py` reads or writes). -/
structure Document where
  pageContent : String
  source : String
deriving DecidableEq

/-- The loader classes imported by `ingest.py` (lines 9-22). -/
inductive LoaderClass where
  | CSVLoader
  | UnstructuredWordDocumentLoader
  | EverNoteLoader
  | UnstructuredEPubLoader
  | UnstructuredHTMLLoader
  | UnstructuredMarkdownLoader
  | UnstructuredODTLoader
  | PyPDFLoader
  | UnstructuredPowerPointLoader
  | TextLoader
deriving DecidableEq

/-- Keyword arguments passed to a loader constructor. -/
abbrev LoaderArgs := List (String × String)

/-- `LOADER_MAPPING` (ingest.py lines 45-62): extension → (loader class, loader args). -/
def LOADER_MAPPING : List (String × LoaderClass × LoaderArgs) :=
  [(".csv", (LoaderClass.CSVLoader, [])),
   (".doc", (LoaderClass.UnstructuredWordDocumentLoader, [])),
   (".docx", (LoaderClass.UnstructuredWordDocumentLoader, [])),
   (".enex", (LoaderClass.EverNoteLoader, [])),
   (".epub", (LoaderClass.UnstructuredEPubLoader, [])),
   (".html", (LoaderClass.UnstructuredHTMLLoader, [])),
   (".md", (LoaderClass.UnstructuredMarkdownLoader, [])),
   (".odt", (LoaderClass.UnstructuredODTLoader, [])),
   (".pdf", (LoaderClass.PyPDFLoader, [])),
   (".ppt", (LoaderClass.UnstructuredPowerPointLoader, [])),
   (".pptx", (LoaderClass.UnstructuredPowerPointLoader, [])),
   (".txt", (LoaderClass.TextLoader, [("encoding", "utf8")]))]

/-- Python `str.lower()` (ASCII case mapping). -/
def pyLower (s : String) : String := String.mk (s.data.map Char.toLower)

/-- Python `str.upper()` (ASCII case mapping). -/
def pyUpper (s : String) : String := String.mk (s.data.map Char.toUpper)

/-- The characters after the last `'.'` of a string (the whole string when it
has no dot): Python `s.rsplit(".", 1)[-1]`. -/
def lastDotSegment (l : List Char) : List Char :=
  (l.reverse.takeWhile (fun c => c != '.')).reverse

/-- The raw (not yet lowercased) extension of a path: a dot followed by
everything after the last dot. -/
def rawExt (file_path : String) : String :=
  String.mk ('.' :: lastDotSegment file_path.data)

/-- Extension resolution as performed by `load_single_document`
(ingest.py lines 66-68): lowercase the extension, then look it up in
`LOADER_MAPPING`. -/
def resolveExt (ext : String) : Option (LoaderClass × LoaderArgs) :=
  LOADER_MAPPING.lookup (pyLower ext)

/-- `ext = "." + file_path.rsplit(".", 1)[-1].lower()` (ingest.py line 66).
Lowercasing commutes with prepending the dot, so this equals
`pyLower (rawExt file_path)`. -/
def fileExt (file_path : String) : String := pyLower (rawExt file_path)

/-- The Python exceptions that can surface from a run. -/
inductive RunError where
  | unsupportedFormat (ext : String)
  | loadError (msg : String)
  | probeFailure (msg : String)
deriving DecidableEq

/-- Behaviour of the external loader classes: constructing a loader on a path
with its args and calling `.load()` either returns documents or raises. -/
abbrev RunLoader := LoaderClass → LoaderArgs → String → Except String (List Document)

/-- `load_single_document` (ingest.py lines 65-72): dispatch on the lowercased
extension; a registered extension invokes the registered loader (whose own
failures surface as `loadError`), an unregistered one raises `ValueError`
(`unsupportedFormat`). -/
def load_single_document (rl : RunLoader) (file_path : String) :
    Except RunError (List Document) :=
  match resolveExt (rawExt file_path) with
  | some (loader_class, loader_args) =>
      (rl loader_class loader_args file_path).mapError RunError.loadError
  | none => Except.error (RunError.unsupportedFormat (fileExt file_path))

/-- Split a path into its `/`-separated components. -/
def splitSlash : List Char → List (List Char)
  | [] => [[]]
  | c :: cs =>
    match splitSlash cs with
    | [] => [[]]
    | h :: t => if c = '/' then [] :: h :: t else (c :: h) :: t

/-- Does `glob.glob(os.path.join(source_dir, "**/*" + ext), recursive=True)`
match relative path `p`?  The basename must end with `ext` (case-sensitive)
and no path component may start with a dot (`*` and `**` skip hidden
entries). -/
def globMatch (ext : String) (p : String) : Bool :=
  let comps := splitSlash p.data
  comps.all (fun c =>
    match c with
    | [] => true
    | ch :: _ => ch != '.')
  && (match comps.getLast? with
      | some last => ext.data.isSuffixOf last
      | none => false)

/-- The `all_files` accumulation of `load_documents` (ingest.py lines 79-86):
for each registered extension, extend with the glob matches of its lowercase
form, then of its uppercase form. -/
def allFiles (fs : List String) : List String :=
  LOADER_MAPPING.foldl
    (fun acc p =>
      acc ++ fs.filter (globMatch (pyLower p.1)) ++ fs.filter (globMatch (pyUpper p.1)))
    []

/-- `filtered_files` (ingest.py line 87): keep the candidates that are not
literally string-equal to a member of `ignored_files`. -/
def filtered_files (all_files : List String) (ignored_files : List String) : List String :=
  all_files.filter (fun file_path => !(ignored_files.elem file_path))

/-- Sequential model of the worker-pool loading loop (ingest.py lines 89-94):
load each filtered file; the first raised exception aborts the run. -/
def mapLoad (rl : RunLoader) : List String → Except RunError (List (List Document))
  | [] => Except.ok []
  | f :: t =>
    match load_single_document rl f with
    | Except.error e => Except.error e
    | Except.ok ds =>
      match mapLoad rl t with
      | Except.error e => Except.error e
      | Except.ok rest => Except.ok (ds :: rest)

/-- `load_documents` (ingest.py lines 75-96). -/
def load_documents (rl : RunLoader) (fs : List String) (ignored_files : List String) :
    Except RunError (List Document) :=
  match mapLoad rl (filtered_files (allFiles fs) ignored_files) with
  | Except.error e => Except.error e
  | Except.ok results => Except.ok results.flatten

/-- Outcome of `process_documents`: either the `exit(0)` "No new documents to
load" path, or the loaded documents together with their chunks. -/
inductive ProcOutcome where
  | exitZero
  | proceed (documents : List Document) (texts : List Document)
deriving DecidableEq

/-- `RecursiveCharacterTextSplitter.split_documents`: split each document and
concatenate, in order (the splitter itself is the external parameter
`split`). -/
def split_documents (split : Document → List Document) (documents : List Document) :
    List Document :=
  documents.flatMap split

/-- `process_documents` (ingest.py lines 99-113). -/
def process_documents (rl : RunLoader) (split : Document → List Document)
    (fs : List String) (ignored_files : List String) : Except RunError ProcOutcome :=
  match load_documents rl fs ignored_files with
  | Except.error e => Except.error e
  | Except.ok documents =>
    if documents.isEmpty then Except.ok ProcOutcome.exitZero
    else Except.ok (ProcOutcome.proceed documents (split_documents split documents))

/-- The embedding function currently installed on the Chroma handle. -/
inductive EmbeddingFn where
  | original
  | adapter
deriving DecidableEq

/-- The Chroma handle: the persisted records visible through `db.get()` and
the currently installed embedding function. -/
structure DB where
  store : List Document
  embedding_function : EmbeddingFn
deriving DecidableEq

/-- Result of the capability probe `embeddings("example text")`
(ingest.py line 122): it returns, raises a `TypeError`, or raises some other
exception (which the `except TypeError` clause does not catch). -/
inductive ProbeResult where
  | ok
  | typeError (msg : String)
  | otherError (msg : String)
deriving DecidableEq

/-- Python `pat in s` substring test (`str.__contains__`). -/
def containsSubstring (s pat : String) : Bool :=
  (s.splitOn pat).length != 1

/-- The message fragment tested on ingest.py line 124. -/
def kwErrFragment : String := "got an unexpected keyword argument"

/-- Did the probe raise a `TypeError` whose message contains
`"got an unexpected keyword argument"`? -/
def isKwTypeError : ProbeResult → Bool
  | ProbeResult.typeError msg => containsSubstring msg kwErrFragment
  | _ => false

/-- Does the probe outcome escape `does_vectorstore_exist` as an uncaught
exception? -/
def probeFatal : ProbeResult → Bool
  | ProbeResult.otherError _ => true
  | _ => false

/-- `does_vectorstore_exist` (ingest.py lines 116-134).  Returns the Python
return value (or the uncaught exception) together with the db handle after
the call, since the adapter substitution on line 129 mutates the handle. -/
def does_vectorstore_exist (db : DB) (probe : ProbeResult) :
    Except RunError Bool × DB :=
  match probe with
  | ProbeResult.otherError msg => (Except.error (RunError.probeFailure msg), db)
  | ProbeResult.typeError msg =>
    let db1 :=
      if containsSubstring msg kwErrFragment then
        { db with embedding_function := EmbeddingFn.adapter }
      else db
    (Except.ok (!db1.store.isEmpty), db1)
  | ProbeResult.ok => (Except.ok (!db.store.isEmpty), db)

/-- `batch_size = 50` (ingest.py lines 158 and 170). -/
def batch_size : Nat := 50

/-- Python `range(0, stop, step)` for `step > 0`. -/
def pyRange (stop step : Nat) : List Nat :=
  (List.range ((stop + step - 1) / step)).map (fun k => k * step)

/-- The batch slicing `texts[i:i + batch_size]` for
`i in range(0, len(texts), batch_size)` (ingest.py lines 159-160, 171-172). -/
def makeBatches (texts : List Document) : List (List Document) :=
  (pyRange texts.length batch_size).map (fun i => (texts.drop i).take batch_size)

/-- A storage call issued to the backend: `Chroma.from_documents` (create) or
`db.add_documents` (append). -/
inductive StorageOp where
  | fromDocuments (batch : List Document)
  | addDocuments (batch : List Document)
deriving DecidableEq

/-- Effect of a storage call on the persisted collection: both calls append
the batch to the collection bound to the configured persist directory. -/
def applyOp (store : List Document) : StorageOp → List Document
  | StorageOp.fromDocuments batch => store ++ batch
  | StorageOp.addDocuments batch => store ++ batch

/-- Observable result of one successful `main()` run: the storage calls in
submission order, whether the run ended through the `exit(0)` "No new
documents" path, the number of newly loaded documents, and the persisted
collection at the end. -/
structure RunResult where
  ops : List StorageOp
  exitZero : Bool
  newDocuments : Nat
  finalStore : List Document
deriving DecidableEq

/-- The exclusion set `main` passes to `process_documents`: the stored
`source` metadata values when the vectorstore exists, otherwise none
(ingest.py lines 154 and 166). -/
def mainIgnored (store0 : List Document) : List String :=
  if store0.isEmpty then [] else store0.map (fun d => d.source)

/-- `main` (ingest.py lines 140-179), parameterised by the loader behaviour,
the splitter, the filesystem under `source_directory`, the persisted
collection found on disk, and the probe outcome. -/
def mainRun (rl : RunLoader) (split : Document → List Document)
    (fs : List String) (store0 : List Document) (probe : ProbeResult) :
    Except RunError RunResult :=
  match does_vectorstore_exist { store := store0, embedding_function := EmbeddingFn.original } probe with
  | (Except.error e, _) => Except.error e
  | (Except.ok true, db1) =>
    match process_documents rl split fs (db1.store.map (fun d => d.source)) with
    | Except.error e => Except.error e
    | Except.ok ProcOutcome.exitZero =>
      Except.ok { ops := [], exitZero := true, newDocuments := 0, finalStore := db1.store }
    | Except.ok (ProcOutcome.proceed documents texts) =>
      Except.ok { ops := (makeBatches texts).map StorageOp.addDocuments, exitZero := false,
                  newDocuments := documents.length,
                  finalStore := ((makeBatches texts).map StorageOp.addDocuments).foldl
                    applyOp db1.store }
  | (Except.ok false, db1) =>
    match process_documents rl split fs [] with
    | Except.error e => Except.error e
    | Except.ok ProcOutcome.exitZero =>
      Except.ok { ops := [], exitZero := true, newDocuments := 0, finalStore := db1.store }
    | Except.ok (ProcOutcome.proceed documents texts) =>
      Except.ok { ops := (makeBatches texts).map StorageOp.fromDocuments, exitZero := false,
                  newDocuments := documents.length,
                  finalStore := ((makeBatches texts).map StorageOp.fromDocuments).foldl
                    applyOp db1.store }

/-- A simple loader behaviour: every file loads to one document whose
`source` metadata is the file path (as the registered langchain loaders do). -/
def sampleLoader : RunLoader :=
  fun _ _ p => Except.ok [{ pageContent := "body", source := p }]

/-- A splitter that keeps each short document as a single chunk. -/
def idSplit : Document → List Document := fun d => [d]

/-- A chunk used in the two-batch counterexample run. -/
def c1doc : Document := { pageContent := "chunk", source := "a.txt" }

/-- A splitter producing 51 chunks from one document, forcing two batches. -/
def c1split : Document → List Document := fun _ => List.replicate 51 c1doc

/-- Loader behaviour of `TextLoader` on an empty `.txt` file: one document
with empty page content, `source` set to the path. -/
def emptyTextLoader : RunLoader :=
  fun _ _ p => Except.ok [{ pageContent := "", source := p }]

/-- `RecursiveCharacterTextSplitter` behaviour on short documents: a document
of at most `chunk_size` characters is one chunk, and an empty document yields
no chunks (`split_text("")` is the empty list). -/
def shortSplit : Document → List Document :=
  fun d => if d.pageContent = "" then [] else [d]

/-- The result of the first run in the re-run witness scenario. -/
def rerunR1 : RunResult :=
  { ops := [StorageOp.fromDocuments [{ pageContent := "body", source := "a.txt" }]],
    exitZero := false, newDocuments := 1,
    finalStore := [{ pageContent := "body", source := "a.txt" }] }

/-! ## Helper lemmas -/

theorem charToLower_idem (c : Char) : Char.toLower (Char.toLower c) = Char.toLower c := by
  have hdef : ∀ d : Char, Char.toLower d
      = if d.toNat ≥ 65 ∧ d.toNat ≤ 90 then Char.ofNat (d.toNat + 32) else d := fun _ => rfl
  by_cases h : c.toNat ≥ 65 ∧ c.toNat ≤ 90
  · have hofnat : (Char.ofNat (c.toNat + 32)).toNat = c.toNat + 32 := by
      unfold Char.ofNat
      rw [dif_pos (Or.inl (by omega))]
      rfl
    have h1 : Char.toLower c = Char.ofNat (c.toNat + 32) := by rw [hdef c, if_pos h]
    rw [h1, hdef (Char.ofNat (c.toNat + 32)), if_neg (by rw [hofnat]; omega)]
  · have h1 : Char.toLower c = c := by rw [hdef c, if_neg h]
    rw [h1, h1]

theorem mapToLower_idem (l : List Char) :
    (l.map Char.toLower).map Char.toLower = l.map Char.toLower := by
  induction l with
  | nil => rfl
  | cons c t ih => simp only [List.map_cons, ih, charToLower_idem]

theorem pyLower_idem (s : String) : pyLower (pyLower s) = pyLower s :=
  congrArg String.mk (mapToLower_idem s.data)

theorem allFilesAux (fs : List String) :
    ∀ (l : List (String × LoaderClass × LoaderArgs)) (acc : List String),
      l.foldl
        (fun acc p =>
          acc ++ fs.filter (globMatch (pyLower p.1)) ++ fs.filter (globMatch (pyUpper p.1)))
        acc
      = acc ++ l.flatMap
          (fun p => fs.filter (globMatch (pyLower p.1)) ++ fs.filter (globMatch (pyUpper p.1))) := by
  intro l
  induction l with
  | nil => intro acc; simp
  | cons x t ih =>
    intro acc
    rw [List.foldl_cons, ih, List.flatMap_cons]
    simp [List.append_assoc]

/-! ## Claim theorems -/

/-- Claim C9: extension resolution is case-insensitive — resolving an
extension string and resolving its lowercased form yield the same
`(loader class, loader args)` entry of the Format Registry. -/
theorem resolveExt_case_insensitive (e : String) :
    resolveExt e = resolveExt (pyLower e) := by
  unfold resolveExt
  rw [pyLower_idem]

/-- Claim C3: a candidate path survives the exclusion step iff it is not
literally string-equal to a member of the exclusion set; exclusion is plain
list membership on path strings, with no path normalization. -/
theorem filtered_files_mem (all_files : List String) (E : List String) (p : String) :
    p ∈ filtered_files all_files E ↔ p ∈ all_files ∧ ¬ p ∈ E := by
  unfold filtered_files
  simp [List.mem_filter, List.elem_iff]

/-- Claim C2 (counterexample): the file `a.Pdf` has lowercased extension
`.pdf`, which is a registry key, yet the scanner's enumeration over the
filesystem `["a.Pdf"]` is empty — mixed-case extensions are not enumerated,
because the globs only try the all-lowercase and all-uppercase forms. -/
theorem allFiles_misses_mixed_case :
    fileExt "a.Pdf" = ".pdf"
    ∧ (LOADER_MAPPING.lookup (fileExt "a.Pdf")).isSome = true
    ∧ allFiles ["a.Pdf"] = [] := by
  exact ⟨by decide, by decide, by decide⟩

/-- Claim C2 (amended): the candidate set equals the set of files under the
source directory matched by the recursive glob of the all-lowercase form or
the all-uppercase form of some registry extension (so all-lower and all-upper
extensions are enumerated, but mixed-case forms such as `.Pdf` are not). -/
theorem allFiles_mem (fs : List String) (f : String) :
    f ∈ allFiles fs ↔ f ∈ fs ∧ ∃ p ∈ LOADER_MAPPING,
      (globMatch (pyLower p.1) f = true ∨ globMatch (pyUpper p.1) f = true) := by
  unfold allFiles
  rw [allFilesAux fs LOADER_MAPPING []]
  simp only [List.nil_append, List.mem_flatMap, List.mem_append, List.mem_filter]
  constructor
  · rintro ⟨p, hp, h | h⟩
    · exact ⟨h.1, p, hp, Or.inl h.2⟩
    · exact ⟨h.1, p, hp, Or.inr h.2⟩
  · rintro ⟨hf, p, hp, h | h⟩
    · exact ⟨p, hp, Or.inl ⟨hf, h⟩⟩
    · exact ⟨p, hp, Or.inr ⟨hf, h⟩⟩

/-- Claim C4: dispatching on a lowercased extension that is not a registry
key raises the `UnsupportedFormat` error (never a silent skip), and on a
registered extension the dispatch invokes the registered loader, surfacing
its outcome. -/
theorem load_single_document_dispatch (rl : RunLoader) (p : String) :
    ((∃ e, load_single_document rl p = Except.error (RunError.unsupportedFormat e))
        ↔ resolveExt (rawExt p) = none)
    ∧ (∀ lc la, resolveExt (rawExt p) = some (lc, la) →
        load_single_document rl p = (rl lc la p).mapError RunError.loadError) := by
  constructor
  · constructor
    · rintro ⟨e, he⟩
      unfold load_single_document at he
      cases h : resolveExt (rawExt p) with
      | none => rfl
      | some v =>
        obtain ⟨lc, la⟩ := v
        rw [h] at he
        simp only [] at he
        cases hr : rl lc la p <;> rw [hr] at he <;> simp [Except.mapError] at he
    · intro h
      refine ⟨fileExt p, ?_⟩
      unfold load_single_document
      rw [h]
  · intro lc la h
    unfold load_single_document
    rw [h]

/-- Claim C7: `does_vectorstore_exist` returns `true` iff the index contains
at least one stored document record. -/
theorem does_vectorstore_exist_iff (db : DB) (probe : ProbeResult) (b : Bool)
    (h : (does_vectorstore_exist db probe).1 = Except.ok b) :
    b = true ↔ db.store ≠ [] := by
  cases probe with
  | ok =>
    unfold does_vectorstore_exist at h
    simp only [Except.ok.injEq] at h
    subst h
    simp [List.isEmpty_iff]
  | typeError msg =>
    unfold does_vectorstore_exist at h
    by_cases hc : containsSubstring msg kwErrFragment = true
    · simp only [hc, if_true, Except.ok.injEq] at h
      subst h
      simp [List.isEmpty_iff]
    · simp only [hc, if_false, Except.ok.injEq] at h
      subst h
      simp [List.isEmpty_iff]
  | otherError msg =>
    unfold does_vectorstore_exist at h
    simp at h

/-- Claim C7 (witness). -/
theorem does_vectorstore_exist_iff_witness :
    (true = true ↔
      (DB.store { store := [{ pageContent := "t", source := "s" }],
                  embedding_function := EmbeddingFn.original }) ≠ []) :=
  does_vectorstore_exist_iff
    { store := [{ pageContent := "t", source := "s" }],
      embedding_function := EmbeddingFn.original }
    ProbeResult.ok true rfl

/-- Claim C10: the existence check mutates the db handle exactly when the
embedding probe raises a `TypeError` whose message reports an unexpected
keyword argument — in that case the embedding function is replaced by the
adapter closure; in every other case the handle is returned unchanged. -/
theorem does_vectorstore_exist_state (db : DB) (probe : ProbeResult) :
    (does_vectorstore_exist db probe).2 =
      if isKwTypeError probe = true then { db with embedding_function := EmbeddingFn.adapter }
      else db := by
  cases probe with
  | ok => rfl
  | otherError msg => rfl
  | typeError msg =>
    unfold does_vectorstore_exist isKwTypeError
    by_cases h : containsSubstring msg kwErrFragment = true <;> simp [h]

/-- Claim C4 (witness). -/
theorem load_single_document_dispatch_witness :
    load_single_document sampleLoader "notes.txt"
      = (sampleLoader LoaderClass.TextLoader [("encoding", "utf8")] "notes.txt").mapError
          RunError.loadError :=
  (load_single_document_dispatch sampleLoader "notes.txt").2
    LoaderClass.TextLoader [("encoding", "utf8")] (by decide)

theorem flatten_slices :
    ∀ (n : Nat) (l : List Document), l.length ≤ n →
      ((pyRange l.length 50).map (fun i => (l.drop i).take 50)).flatten = l := by
  intro n
  induction n with
  | zero =>
    intro l hl
    have h0 : l = [] := List.length_eq_zero.mp (Nat.le_zero.mp hl)
    subst h0
    rfl
  | succ n ih =>
    intro l hl
    match l with
    | [] => rfl
    | a :: t =>
      have hdroplen : ((a :: t).drop 50).length = (a :: t).length - 50 := List.length_drop 50 _
      have hc : ((a :: t).length + 50 - 1) / 50
          = (((a :: t).drop 50).length + 50 - 1) / 50 + 1 := by
        rw [hdroplen]
        simp only [List.length_cons]
        omega
      have hstep : ∀ k : Nat, (a :: t).drop (Nat.succ k * 50) = ((a :: t).drop 50).drop (k * 50) := by
        intro k
        rw [List.drop_drop]
        congr 1
        omega
      have hih : ((pyRange ((a :: t).drop 50).length 50).map
            (fun i => (((a :: t).drop 50).drop i).take 50)).flatten = (a :: t).drop 50 := by
        apply ih
        rw [hdroplen]
        simp only [List.length_cons] at hl ⊢
        omega
      calc ((pyRange (a :: t).length 50).map (fun i => ((a :: t).drop i).take 50)).flatten
          = ((0 :: (List.range ((((a :: t).drop 50).length + 50 - 1) / 50)).map
                (fun k => Nat.succ k * 50)).map (fun i => ((a :: t).drop i).take 50)).flatten := by
            unfold pyRange
            rw [hc, List.range_succ_eq_map]
            simp only [List.map_map, List.map_cons, Function.comp]
            rfl
        _ = (a :: t).take 50
              ++ ((List.range ((((a :: t).drop 50).length + 50 - 1) / 50)).map
                    (fun k => (((a :: t).drop 50).drop (k * 50)).take 50)).flatten := by
            simp only [List.map_cons, List.flatten_cons, List.drop_zero, List.map_map]
            congr 2
            apply List.map_congr_left
            intro k _
            simp only [Function.comp_apply, hstep k]
        _ = (a :: t).take 50 ++ (a :: t).drop 50 := by
            congr 1
            have hform : (List.range ((((a :: t).drop 50).length + 50 - 1) / 50)).map
                  (fun k => (((a :: t).drop 50).drop (k * 50)).take 50)
                = (pyRange ((a :: t).drop 50).length 50).map
                    (fun i => (((a :: t).drop 50).drop i).take 50) := by
              unfold pyRange
              rw [List.map_map]
              rfl
            rw [hform, hih]
        _ = a :: t := List.take_append_drop 50 _

/-- Claim C6: for a chunk sequence of length `N` and batch size 50, the batch
loop produces exactly `⌈N/50⌉` slices, each of length at most 50, whose
concatenation in submission order is the original sequence. -/
theorem makeBatches_partition (texts : List Document) :
    (makeBatches texts).length = (texts.length + batch_size - 1) / batch_size
    ∧ (∀ b ∈ makeBatches texts, b.length ≤ batch_size)
    ∧ (makeBatches texts).flatten = texts := by
  refine ⟨?_, ?_, ?_⟩
  · simp [makeBatches, pyRange, batch_size]
  · intro b hb
    unfold makeBatches at hb
    obtain ⟨i, _, hi⟩ := List.mem_map.mp hb
    rw [← hi]
    exact List.length_take_le batch_size _
  · exact flatten_slices texts.length texts (Nat.le_refl _)

theorem foldl_applyOp (f : List Document → StorageOp)
    (hf : ∀ s b, applyOp s (f b) = s ++ b) :
    ∀ (bs : List (List Document)) (s : List Document),
      (bs.map f).foldl applyOp s = s ++ bs.flatten := by
  intro bs
  induction bs with
  | nil => intro s; simp
  | cons b t ih =>
    intro s
    rw [List.map_cons, List.foldl_cons, hf, ih, List.flatten_cons, List.append_assoc]

theorem dvse_not_fatal (db : DB) (p : ProbeResult) (h : probeFatal p = false) :
    ∃ ef, does_vectorstore_exist db p
      = (Except.ok (!db.store.isEmpty), { store := db.store, embedding_function := ef }) := by
  cases p with
  | ok => exact ⟨db.embedding_function, rfl⟩
  | otherError msg => simp [probeFatal] at h
  | typeError msg =>
    unfold does_vectorstore_exist
    by_cases hc : containsSubstring msg kwErrFragment = true
    · exact ⟨EmbeddingFn.adapter, by simp [hc]⟩
    · exact ⟨db.embedding_function, by simp [hc]⟩

/-- Claim C1 (counterexample): ingesting 51 chunks into a fresh index
produces two batches, and the second batch is submitted through
`Chroma.from_documents` again — not through `add_documents`
(`AppendExisting`) on the handle returned for the first batch. -/
theorem freshRun_second_batch_recreates :
    mainRun sampleLoader c1split ["a.txt"] [] ProbeResult.ok
      = Except.ok { ops := [StorageOp.fromDocuments (List.replicate 50 c1doc),
                            StorageOp.fromDocuments [c1doc]],
                    exitZero := false, newDocuments := 1,
                    finalStore := List.replicate 51 c1doc }
    ∧ StorageOp.fromDocuments ([c1doc] : List Document)
        ≠ StorageOp.addDocuments ([c1doc] : List Document) := by
  exact ⟨by rfl, by decide⟩

/-- Claim C1 (amended): in a fresh-index run every batch, the first and every
subsequent one alike, is submitted through `Chroma.from_documents` (the
create operation, re-binding the handle each time); no `add_documents`
(`AppendExisting`) call occurs in that branch. -/
theorem freshRun_batches_all_fromDocuments (rl : RunLoader)
    (split : Document → List Document) (fs : List String) (probe : ProbeResult)
    (documents : List Document)
    (hp : probeFatal probe = false)
    (hl : load_documents rl fs [] = Except.ok documents)
    (hne : documents ≠ []) :
    mainRun rl split fs [] probe
      = Except.ok
          { ops := (makeBatches (split_documents split documents)).map StorageOp.fromDocuments,
            exitZero := false, newDocuments := documents.length,
            finalStore := split_documents split documents } := by
  obtain ⟨d, ds, hdd⟩ : ∃ d ds, documents = d :: ds := by
    cases documents with
    | nil => exact absurd rfl hne
    | cons d ds => exact ⟨d, ds, rfl⟩
  subst hdd
  obtain ⟨ef, hdv⟩ := dvse_not_fatal { store := [], embedding_function := EmbeddingFn.original } probe hp
  have hdv2 : does_vectorstore_exist { store := [], embedding_function := EmbeddingFn.original } probe
      = (Except.ok false, { store := [], embedding_function := ef }) := hdv
  have hpd : process_documents rl split fs []
      = Except.ok (ProcOutcome.proceed (d :: ds) (split_documents split (d :: ds))) := by
    unfold process_documents
    rw [hl]
    rfl
  unfold mainRun
  rw [hdv2, hpd]
  dsimp only
  rw [foldl_applyOp StorageOp.fromDocuments (fun s b => rfl), List.nil_append]
  have hflat : (makeBatches (split_documents split (d :: ds))).flatten
      = split_documents split (d :: ds) :=
    flatten_slices (split_documents split (d :: ds)).length _ (Nat.le_refl _)
  rw [hflat]

/-- Claim C1 (witness for the amended theorem). -/
theorem freshRun_batches_all_fromDocuments_witness :
    mainRun sampleLoader c1split ["a.txt"] [] ProbeResult.ok
      = Except.ok
          { ops := (makeBatches (split_documents c1split
                      [{ pageContent := "body", source := "a.txt" }])).map StorageOp.fromDocuments,
            exitZero := false,
            newDocuments := ([{ pageContent := "body", source := "a.txt" }] : List Document).length,
            finalStore := split_documents c1split
                      [{ pageContent := "body", source := "a.txt" }] } :=
  freshRun_batches_all_fromDocuments sampleLoader c1split ["a.txt"] ProbeResult.ok
    [{ pageContent := "body", source := "a.txt" }] rfl (by rfl) (by decide)

/-- Claim C5: when the filtered candidate set is empty the run terminates
through the `exit(0)` "No new documents" path: no chunking is performed (the
result does not depend on the splitter), no storage call is issued, and the
persisted collection is untouched. -/
theorem emptyScan_exitZero (rl : RunLoader) (split : Document → List Document)
    (fs : List String) (store0 : List Document) (probe : ProbeResult)
    (hp : probeFatal probe = false)
    (hempty : filtered_files (allFiles fs) (mainIgnored store0) = []) :
    mainRun rl split fs store0 probe
      = Except.ok { ops := [], exitZero := true, newDocuments := 0, finalStore := store0 } := by
  obtain ⟨ef, hdv⟩ := dvse_not_fatal { store := store0, embedding_function := EmbeddingFn.original } probe hp
  unfold mainRun
  rw [hdv]
  by_cases hst : store0.isEmpty = true
  · have hig : mainIgnored store0 = [] := by simp [mainIgnored, hst]
    rw [hig] at hempty
    simp only [hst, Bool.not_true]
    unfold process_documents load_documents
    rw [hempty]
    rfl
  · have hig : mainIgnored store0 = store0.map (fun d => d.source) := by
      simp [mainIgnored, hst]
    rw [hig] at hempty
    simp only [hst]
    simp only [Bool.not_false]
    unfold process_documents load_documents
    rw [hempty]
    rfl

/-- Claim C5 (witness): a source directory containing only a file with an
unregistered extension yields the empty-scan success outcome. -/
theorem emptyScan_exitZero_witness :
    mainRun sampleLoader idSplit ["README"] [] ProbeResult.ok
      = Except.ok { ops := [], exitZero := true, newDocuments := 0, finalStore := [] } :=
  emptyScan_exitZero sampleLoader idSplit ["README"] [] ProbeResult.ok rfl (by decide)

theorem filtered_files_nil (A : List String) : filtered_files A [] = A := by
  unfold filtered_files
  simp

theorem mapError_ok_inv {ε ε' α : Type} (g : ε → ε') (x : Except ε α) (a : α)
    (h : x.mapError g = Except.ok a) : x = Except.ok a := by
  cases x with
  | error e => simp [Except.mapError] at h
  | ok b => simpa [Except.mapError] using h

theorem mapLoad_forall2 (rl : RunLoader) :
    ∀ (l : List String) (rs : List (List Document)),
      mapLoad rl l = Except.ok rs →
      List.Forall₂ (fun f ds => load_single_document rl f = Except.ok ds) l rs := by
  intro l
  induction l with
  | nil =>
    intro rs h
    unfold mapLoad at h
    cases h
    exact List.Forall₂.nil
  | cons f t ih =>
    intro rs h
    unfold mapLoad at h
    cases hld : load_single_document rl f with
    | error e =>
      rw [hld] at h
      simp at h
    | ok ds =>
      rw [hld] at h
      cases hm : mapLoad rl t with
      | error e =>
        rw [hm] at h
        simp at h
      | ok rest =>
        rw [hm] at h
        dsimp only at h
        cases h
        exact List.Forall₂.cons hld (ih rest hm)

theorem forall2_mem_left {α β : Type} {R : α → β → Prop} :
    ∀ {l : List α} {r : List β}, List.Forall₂ R l r → ∀ a ∈ l, ∃ b ∈ r, R a b := by
  intro l r h
  induction h with
  | nil => intro a ha; simp at ha
  | cons hR hrest ih =>
    intro a ha
    rcases List.mem_cons.mp ha with h1 | h2
    · subst h1
      exact ⟨_, List.mem_cons_self _ _, hR⟩
    · obtain ⟨b, hb, hRb⟩ := ih a h2
      exact ⟨b, List.mem_cons_of_mem _ hb, hRb⟩

theorem forall2_mem_right {α β : Type} {R : α → β → Prop} :
    ∀ {l : List α} {r : List β}, List.Forall₂ R l r → ∀ b ∈ r, ∃ a ∈ l, R a b := by
  intro l r h
  induction h with
  | nil => intro b hb; simp at hb
  | cons hR hrest ih =>
    intro b hb
    rcases List.mem_cons.mp hb with h1 | h2
    · subst h1
      exact ⟨_, List.mem_cons_self _ _, hR⟩
    · obtain ⟨a, ha, hRa⟩ := ih b h2
      exact ⟨a, List.mem_cons_of_mem _ ha, hRa⟩

theorem load_single_document_source (rl : RunLoader)
    (hsrc : ∀ lc la q ds d, rl lc la q = Except.ok ds → d ∈ ds → d.source = q)
    (f : String) (ds : List Document)
    (h : load_single_document rl f = Except.ok ds) :
    ∀ d ∈ ds, d.source = f := by
  unfold load_single_document at h
  cases hre : resolveExt (rawExt f) with
  | none =>
    rw [hre] at h
    simp at h
  | some v =>
    obtain ⟨lc, la⟩ := v
    rw [hre] at h
    dsimp only at h
    have h2 : rl lc la f = Except.ok ds := mapError_ok_inv _ _ _ h
    intro d hd
    exact hsrc lc la f ds d h2 hd

theorem load_documents_inv (rl : RunLoader) (fs : List String) (ig : List String)
    (docs : List Document) (h : load_documents rl fs ig = Except.ok docs) :
    ∃ rs, mapLoad rl (filtered_files (allFiles fs) ig) = Except.ok rs ∧ docs = rs.flatten := by
  unfold load_documents at h
  cases hm : mapLoad rl (filtered_files (allFiles fs) ig) with
  | error e =>
    rw [hm] at h
    simp at h
  | ok rs =>
    rw [hm] at h
    dsimp only at h
    cases h
    exact ⟨rs, rfl, rfl⟩

theorem process_documents_inv (rl : RunLoader) (split : Document → List Document)
    (fs : List String) (ig : List String) (oc : ProcOutcome)
    (h : process_documents rl split fs ig = Except.ok oc) :
    ∃ documents, load_documents rl fs ig = Except.ok documents ∧
      ((documents = [] ∧ oc = ProcOutcome.exitZero)
       ∨ (documents ≠ [] ∧
          oc = ProcOutcome.proceed documents (split_documents split documents))) := by
  unfold process_documents at h
  cases hld : load_documents rl fs ig with
  | error e =>
    rw [hld] at h
    simp at h
  | ok documents =>
    rw [hld] at h
    dsimp only at h
    by_cases hd : documents.isEmpty = true
    · rw [if_pos hd] at h
      cases h
      exact ⟨documents, rfl, Or.inl ⟨List.isEmpty_iff.mp hd, rfl⟩⟩
    · rw [if_neg hd] at h
      cases h
      refine ⟨documents, rfl, Or.inr ⟨?_, rfl⟩⟩
      intro hnil
      exact hd (by rw [hnil]; rfl)

/-- Claim C8 (counterexample): a source directory holding one empty `.txt`
file defeats re-run idempotence.  The first run loads the file's (empty)
document but the splitter produces no chunks, so nothing is stored and the
file's path never enters the exclusion set; the second run, against the index
left by the first, loads the same document again — it processes 1 new
document, not 0. -/
theorem rerun_reloads_unchunked_file :
    mainRun emptyTextLoader shortSplit ["empty.txt"] [] ProbeResult.ok
      = Except.ok { ops := [], exitZero := false, newDocuments := 1, finalStore := [] }
    ∧ mainRun emptyTextLoader shortSplit ["empty.txt"]
        (RunResult.finalStore
          { ops := [], exitZero := false, newDocuments := 1, finalStore := [] })
        ProbeResult.ok
      = Except.ok { ops := [], exitZero := false, newDocuments := 1, finalStore := [] } := by
  exact ⟨by rfl, by rfl⟩

/-- Claim C8 (amended): re-running the pipeline against the index produced by
a first run over an unchanged source directory processes zero new documents,
provided every enumerated file that loads successfully contributes at least
one chunk, loaders stamp each document's `source` with the file path, and
chunks inherit their parent's `source`. -/
theorem rerun_idempotent (rl : RunLoader) (split : Document → List Document)
    (fs : List String) (p1 p2 : ProbeResult) (r1 : RunResult)
    (hsrc : ∀ lc la q ds d, rl lc la q = Except.ok ds → d ∈ ds → d.source = q)
    (hsplit : ∀ d c, c ∈ split d → c.source = d.source)
    (hchunks : ∀ f ∈ allFiles fs, ∀ ds, load_single_document rl f = Except.ok ds →
        ds.flatMap split ≠ [])
    (hp2 : probeFatal p2 = false)
    (h1 : mainRun rl split fs [] p1 = Except.ok r1) :
    mainRun rl split fs r1.finalStore p2
      = Except.ok { ops := [], exitZero := true, newDocuments := 0,
                    finalStore := r1.finalStore } := by
  have hp1 : probeFatal p1 = false := by
    cases hcase : p1 with
    | otherError msg =>
      rw [hcase] at h1
      unfold mainRun does_vectorstore_exist at h1
      simp at h1
    | ok => rfl
    | typeError m => rfl
  obtain ⟨ef, hdv⟩ :=
    dvse_not_fatal { store := [], embedding_function := EmbeddingFn.original } p1 hp1
  have hdv2 : does_vectorstore_exist
        { store := [], embedding_function := EmbeddingFn.original } p1
      = (Except.ok false, { store := [], embedding_function := ef }) := hdv
  unfold mainRun at h1
  rw [hdv2] at h1
  dsimp only at h1
  cases hpd : process_documents rl split fs [] with
  | error e =>
    rw [hpd] at h1
    simp at h1
  | ok oc =>
    rw [hpd] at h1
    obtain ⟨documents, hld, hcases⟩ := process_documents_inv rl split fs [] oc hpd
    rcases hcases with ⟨hdocs_nil, hoc⟩ | ⟨hdocs_ne, hoc⟩
    · subst hoc
      dsimp only at h1
      cases h1
      dsimp only
      obtain ⟨ef2, hdvB⟩ :=
        dvse_not_fatal { store := [], embedding_function := EmbeddingFn.original } p2 hp2
      have hdvB2 : does_vectorstore_exist
            { store := [], embedding_function := EmbeddingFn.original } p2
          = (Except.ok false, { store := [], embedding_function := ef2 }) := hdvB
      unfold mainRun
      rw [hdvB2]
      dsimp only
      rw [hpd]
    · subst hoc
      dsimp only at h1
      cases h1
      have hstore : List.foldl applyOp ([] : List Document)
          ((makeBatches (split_documents split documents)).map StorageOp.fromDocuments)
          = split_documents split documents := by
        rw [foldl_applyOp StorageOp.fromDocuments (fun s b => rfl), List.nil_append]
        exact flatten_slices _ _ (Nat.le_refl _)
      dsimp only
      rw [hstore]
      obtain ⟨rs, hm, hflat_docs⟩ := load_documents_inv rl fs [] documents hld
      rw [filtered_files_nil] at hm
      have hf2 := mapLoad_forall2 rl (allFiles fs) rs hm
      subst hflat_docs
      have hcov : ∀ f ∈ allFiles fs,
          f ∈ (split_documents split rs.flatten).map (fun d => d.source) := by
        intro f hf
        obtain ⟨ds, hds, hfload⟩ := forall2_mem_left hf2 f hf
        have hne2 := hchunks f hf ds hfload
        obtain ⟨c, hc⟩ := List.exists_mem_of_ne_nil _ hne2
        obtain ⟨d', hd', hcd'⟩ := List.mem_flatMap.mp hc
        have hcsrc : c.source = f := by
          rw [hsplit d' c hcd']
          exact load_single_document_source rl hsrc f ds hfload d' hd'
        have hcT : c ∈ split_documents split rs.flatten := by
          unfold split_documents
          exact List.mem_flatMap.mpr ⟨d', List.mem_flatten.mpr ⟨ds, hds, hd'⟩, hcd'⟩
        exact List.mem_map.mpr ⟨c, hcT, hcsrc⟩
      have hTne : split_documents split rs.flatten ≠ [] := by
        obtain ⟨d, hd⟩ := List.exists_mem_of_ne_nil _ hdocs_ne
        obtain ⟨ds, hds, hdds⟩ := List.mem_flatten.mp hd
        obtain ⟨f, hfmem, hfload⟩ := forall2_mem_right hf2 ds hds
        have hne2 := hchunks f hfmem ds hfload
        obtain ⟨c, hc⟩ := List.exists_mem_of_ne_nil _ hne2
        obtain ⟨d', hd', hcd'⟩ := List.mem_flatMap.mp hc
        have hcT : c ∈ split_documents split rs.flatten := by
          unfold split_documents
          exact List.mem_flatMap.mpr ⟨d', List.mem_flatten.mpr ⟨ds, hds, hd'⟩, hcd'⟩
        exact List.ne_nil_of_mem hcT
      obtain ⟨ef2, hdvB⟩ := dvse_not_fatal
        { store := split_documents split rs.flatten,
          embedding_function := EmbeddingFn.original } p2 hp2
      have hsEmpty : (split_documents split rs.flatten).isEmpty = false := by
        rw [Bool.eq_false_iff]
        intro hh
        exact hTne (List.isEmpty_iff.mp hh)
      dsimp only at hdvB
      rw [hsEmpty, Bool.not_false] at hdvB
      unfold mainRun
      rw [hdvB]
      dsimp only
      have hfe : filtered_files (allFiles fs)
          ((split_documents split rs.flatten).map (fun d => d.source)) = [] := by
        unfold filtered_files
        rw [List.filter_eq_nil_iff]
        intro a ha
        have hmem := hcov a ha
        simp [List.elem_iff, hmem]
      have hpd2 : process_documents rl split fs
          ((split_documents split rs.flatten).map (fun d => d.source))
          = Except.ok ProcOutcome.exitZero := by
        unfold process_documents load_documents
        rw [hfe]
        rfl
      rw [hpd2]

/-- Claim C8 (witness for the amended theorem). -/
theorem rerun_idempotent_witness :
    mainRun sampleLoader idSplit ["a.txt"] (RunResult.finalStore rerunR1) ProbeResult.ok
      = Except.ok { ops := [], exitZero := true, newDocuments := 0,
                    finalStore := RunResult.finalStore rerunR1 } :=
  rerun_idempotent sampleLoader idSplit ["a.txt"] ProbeResult.ok ProbeResult.ok rerunR1
    (by
      intro lc la q ds d h hd
      have h2 : Except.ok [({ pageContent := "body", source := q } : Document)]
          = Except.ok ds := h
      injection h2 with h3
      subst h3
      simp at hd
      subst hd
      rfl)
    (by
      intro d c hc
      have hc2 : c ∈ [d] := hc
      simp at hc2
      subst hc2
      rfl)
    (by
      intro f hf ds hds
      have hall : allFiles ["a.txt"] = ["a.txt"] := by decide
      rw [hall] at hf
      simp at hf
      subst hf
      have h2 : Except.ok [({ pageContent := "body", source := "a.txt" } : Document)]
          = Except.ok ds := hds
      injection h2 with h3
      subst h3
      decide)
    rfl
    (by rfl)
